import Mathlib

/-!
Verification of the install orchestration pipeline of `npm-stack-installer`.

The development shallowly embeds the JavaScript sources:
* `lib/config.js` — constants (cache key, supported platforms, arch label);
* `lib/download-purescript-source.js` / the tar filters in `build-purescript.js` —
  the source-archive entry filter;
* `spawn-stack.js` — the `--allow-different-user` argument injection and the
  `stack`-not-found error enrichment (install-guidance URL per platform);
* `dl-tar.js` — per-entry progress notification behaviour of the archive fetcher;
* `download-or-build-purescript.js` — the binary acquisition strategy
  (head check → download → verify, with build-from-source fallback);
* `build-purescript.js` — the source build pipeline (download → setup → build),
  including the `feint` join guard of the observable generation (`feint.js`);
* `install-purescript.js` — the install cache manager (search / restore /
  check-binary, broken-cache purge, re-acquisition, write-cache).

Effectful code is modelled as pure trace-producing functions over explicit
environments describing the outcomes of the external operations (network,
filesystem, cache store, subprocesses).  Progress events are modelled as a
list of `Event`s, cache-store side effects as a list of `StoreOp`s.
-/

/-! ### Node `path` primitives (posix flavour)

The JavaScript sources use `path.extname`, `path.basename`, `path.join`,
`String.prototype.split(sep)` and `String.prototype.startsWith`.  Tar entry
paths are `/`-separated; we model the posix behaviour.  The functions below
operate on `List Char` so that all proofs reduce by `decide`/`rfl`. -/

/-- Splits a character list on a separator character, mirroring
JavaScript `String.prototype.split` with a single-character separator:
`"" ↦ [""]`, `"a/" ↦ ["a", ""]`. -/
def splitOnChar (sep : Char) : List Char → List (List Char)
  | [] => [[]]
  | c :: cs =>
    let r := splitOnChar sep cs
    if c = sep then [] :: r
    else
      match r with
      | h :: t => (c :: h) :: t
      | [] => [[c]]

/-- Drops trailing `/` separators, as node `path.basename` ignores them. -/
def dropTrailingSep (cs : List Char) : List Char :=
  (cs.reverse.dropWhile (· = '/')).reverse

/-- Model of node `path.posix.basename(p)`: the last path component,
ignoring trailing separators. -/
def basenameOf (p : String) : String :=
  let cs := dropTrailingSep p.data
  if cs = [] then
    if p.data.any (· = '/') then "/" else ""
  else
    String.mk ((splitOnChar '/' cs).getLastD [])

/-- Model of node `path.posix.basename(p, ext)`: strips `ext` from the
basename when it is a proper suffix. -/
def basenameExt (p ext : String) : String :=
  let b := basenameOf p
  if b ≠ ext ∧ ext.data.isSuffixOf b.data then
    String.mk (b.data.take (b.data.length - ext.data.length))
  else b

/-- Index of the last `.` in a character list, if any. -/
def lastDotIdxAux : List Char → Nat → Option Nat → Option Nat
  | [], _, acc => acc
  | c :: cs, i, acc => lastDotIdxAux cs (i + 1) (if c = '.' then some i else acc)

def lastDotIdx (cs : List Char) : Option Nat :=
  lastDotIdxAux cs 0 none

/-- Model of node `path.posix.extname(p)`: the suffix of the basename from its
last `.`, empty when the dot is the leading character of the basename or the
basename is `..`. -/
def extname (p : String) : String :=
  let b := (basenameOf p).data
  match lastDotIdx b with
  | none => ""
  | some i =>
    if i = 0 then ""
    else if b = ['.', '.'] then ""
    else String.mk (b.drop i)

/-- Model of node `path.posix.join(a, b)` for already-normalised segments. -/
def pathJoin (a b : String) : String :=
  if a = "" then b else if b = "" then a else a ++ "/" ++ b

/-- Model of JavaScript `String.prototype.startsWith`. -/
def strStartsWith (p q : String) : Bool :=
  q.data.isPrefixOf p.data

/-! ### `lib/config.js` constants -/

def defaultVersion : String := "0.12.5"

def supportedPlatformArchives : List (String × String) :=
  [("linux", "linux64"), ("darwin", "macos"), ("win32", "win64")]

def platformSupported (platform : String) : Bool :=
  (supportedPlatformArchives.map Prod.fst).contains platform

def cacheKey : String := "install-purescript:binary"

/-! ### Source archive filter
(`download-purescript-source.js` and the identical inline filter in
`build-purescript.js`): drops `.md`/`.yml` files, anything whose path starts
with `join(topLevelDir, d)` for `d ∈ {appveyor, psc-ide, travis}`, and the
basenames `.gitignore`, `logo.png`, `make_release_notes`. -/

def ignoredExtensions : List String := [".md", ".yml"]

def ignoredDirectoryNames : List String := ["appveyor", "psc-ide", "travis"]

def ignoredFilenames : List String := [".gitignore", "logo.png", "make_release_notes"]

/-- The first `sep`-separated component of the path
(`const [topLevelDir] = path.split(sep)`). -/
def topLevelDir (path : String) : String :=
  String.mk ((splitOnChar '/' path.data).headD [])

/-- The `filter` callback passed by `downloadPurescriptSource` to the archive
fetcher, translated clause by clause from the source. -/
def sourceArchiveFilter (path : String) : Bool :=
  if ignoredExtensions.contains (extname path) then false
  else if ignoredDirectoryNames.any
      (fun d => strStartsWith path (pathJoin (topLevelDir path) d)) then false
  else !(ignoredFilenames.contains (basenameOf path))

/-- The claim C8 predicate, written from the specification text: the entry
(a) does not have extension `.md`/`.yml`, (b) does not lie under a directory
named `appveyor`, `psc-ide` or `travis` placed directly inside the archive
top-level directory (i.e. its second path component is such a name and there
is something below it), and (c) its basename is none of `.gitignore`,
`logo.png`, `make_release_notes`. -/
def c8SpecAccepts (path : String) : Bool :=
  !(ignoredExtensions.contains (extname path))
  && !(match splitOnChar '/' path.data with
       | _top :: d :: _ :: _ => ignoredDirectoryNames.contains (String.mk d)
       | _ => false)
  && !(ignoredFilenames.contains (basenameOf path))

/-- The amended C8 predicate: clause (b) is the string-prefix rule the code
actually applies — the path extends `join(topLevelDir, d)` as a *string
prefix*, so names merely beginning with an ignored directory name are also
rejected. -/
def c8AmendedAccepts (path : String) : Bool :=
  !(ignoredExtensions.contains (extname path))
  && !(ignoredDirectoryNames.any
        (fun d => strStartsWith path (pathJoin (topLevelDir path) d)))
  && !(ignoredFilenames.contains (basenameOf path))

/-! ### Subprocess runner argument injection (`spawn-stack.js`)

On every platform other than `win32`, `--allow-different-user` is prepended
unless the caller passed either the allow or the deny form. -/

def spawnStackArgs (platform : String) (args : List String) : List String :=
  if platform ≠ "win32"
      ∧ ¬ args.contains "--allow-different-user"
      ∧ ¬ args.contains "--no-allow-different-user" then
    "--allow-different-user" :: args
  else args

/-! ### Errors and progress events -/

/-- An error value produced by an external operation, before the pipeline
tags it with a stage id. -/
structure ErrData where
  code : String
  message : String
deriving DecidableEq, Repr

/-- An error as surfaced by the pipeline: the underlying error, the stage id
assigned to its `id` property (empty when none was assigned), the
`INSTALL_URL` property when set, and the possibly rewritten message. -/
structure TaggedErr where
  base : ErrData
  tag : String
  installUrl : Option String
  message : String
deriving DecidableEq, Repr

/-- Tags an error with a stage id, leaving its message untouched
(`addId` / `e.id = …` in the sources). -/
def plainErr (e : ErrData) (tag : String) : TaggedErr :=
  ⟨e, tag, none, e.message⟩

def TaggedErr.withTag (e : TaggedErr) (t : String) : TaggedErr :=
  { e with tag := t }

/-- A progress event: `start s` is an event whose `id` is exactly `s`
(with or without payload — payloads are not needed by the claims except for
errors), `complete s` has id `s:complete`, and `fail s e` has id `s:fail`
and carries the error `e`. -/
inductive Event where
  | start (stage : String)
  | complete (stage : String)
  | fail (stage : String) (e : TaggedErr)
deriving DecidableEq, Repr

def Event.stage : Event → String
  | .start s => s
  | .complete s => s
  | .fail s _ => s

def Event.isStart : Event → Bool
  | .start _ => true
  | _ => false

/-- The `id` property of the emitted progress object. -/
def Event.eventId : Event → String
  | .start s => s
  | .complete s => s ++ ":complete"
  | .fail s _ => s ++ ":fail"

/-! ### `stack` toolchain check (`download-or-build-purescript.js`)

`which('stack')` plus `stack --numeric-version`; an `ENOENT` failure is
enriched with a platform-specific installation-guidance URL
(the `HASHES` map) and a replacement message. -/

/-- The `HASHES` lookup: anchor of the Stack installation guide per
platform. -/
def stackHash (platform : String) : Option String :=
  if platform = "darwin" then some "macos"
  else if platform = "freebsd" then some "freebsd"
  else if platform = "linux" then some "linux"
  else if platform = "win32" then some "windows"
  else none

def stackGuideBase : String :=
  "https://docs.haskellstack.org/en/stable/install_and_upgrade/"

/-- `e.INSTALL_URL`: the guide URL, with a platform anchor when the platform
is one of the four known ones, the generic page otherwise. -/
def stackInstallUrl (platform : String) : String :=
  stackGuideBase ++
    match stackHash platform with
    | some h => "#" ++ h
    | none => ""

def stackNotFoundPhrase : String :=
  "`stack` command is not found in your PATH. Make sure you have installed Stack. "

/-- The `catch` handler of `stackPromise`: an `ENOENT` error gets
`INSTALL_URL` and the replacement message; other errors pass through. -/
def enrichStackError (platform : String) (e : ErrData) : TaggedErr :=
  if e.code = "ENOENT" then
    { base := e, tag := "", installUrl := some (stackInstallUrl platform),
      message := stackNotFoundPhrase ++ stackInstallUrl platform }
  else ⟨e, "", none, e.message⟩

/-! ### Source build pipeline (`build-purescript.js`)

`mkdtemp` → source download (progress id `download`) → `stack setup`
(progress id `setup`, one event per stderr line) → `stack install …`
(progress id `build`, one event per non-negligible stderr line).
The negligible-line filter drops the known-benign `WARNING:` lines.
The concurrent early `setup` start (triggered when `stack.yaml` is fully
received) is sequentialised: an early-started `setup` delivers its outcome
at the `await setup()` join, which is where the model places it. -/

/-- Model of `negligibleLineRe` (case-insensitive, anchored at the start):
`^WARNING: (?:filepath wildcard|(?:File|Directory) listed|Installation path|Specified pattern) .*` -/
def negligibleLine (line : String) : Bool :=
  ["warning: filepath wildcard ", "warning: file listed ",
   "warning: directory listed ", "warning: installation path ",
   "warning: specified pattern "].any
    (fun h => h.data.isPrefixOf (line.data.map Char.toLower))

/-- Outcomes of the external operations of one `buildPurescript` run. -/
structure BuildEnv where
  /-- `mkdtemp` failure (rejects with an untagged error). -/
  mkdtempErr : Option ErrData
  /-- Number of per-chunk progress callbacks delivered by the source
  archive fetch before it settles. -/
  srcChunks : Nat
  /-- Failure of the source archive fetch, after those chunks. -/
  srcErr : Option ErrData
  /-- stderr lines of `stack setup`. -/
  setupLines : List String
  /-- Non-zero-exit/spawn failure of `stack setup`. -/
  setupErr : Option ErrData
  /-- stderr lines of `stack install …`. -/
  buildLines : List String
  /-- Non-zero-exit/spawn failure of `stack install …`. -/
  buildErr : Option ErrData
deriving Repr

/-- Trace and outcome of `buildPurescript` (stage ids as emitted by
`build-purescript.js`, before the caller rewrites `download` to
`download-source`).  `none` outcome means the promise resolved. -/
def buildModel (env : BuildEnv) : List Event × Option TaggedErr :=
  match env.mkdtempErr with
  | some e => ([], some (plainErr e ""))
  | none =>
    let dl := List.replicate env.srcChunks (Event.start "download")
    match env.srcErr with
    | some e => (dl, some (plainErr e "download"))
    | none =>
      let setupEvs := env.setupLines.map (fun _ => Event.start "setup")
      match env.setupErr with
      | some e => (dl ++ [Event.complete "download"] ++ setupEvs, some (plainErr e "setup"))
      | none =>
        let buildEvs := (env.buildLines.filter (fun l => !negligibleLine l)).map
          (fun _ => Event.start "build")
        let evs := dl ++ [Event.complete "download"] ++ setupEvs
          ++ [Event.complete "setup"] ++ buildEvs
        match env.buildErr with
        | some e => (evs, some (plainErr e "build"))
        | none => (evs, none)

/-! ### Binary acquisition strategy (`download-or-build-purescript.js`) -/

/-- `entry.id.replace('download', 'download-source')` on the stage ids
produced by `buildPurescript`. -/
def rewriteStage (s : String) : String :=
  if s = "download" then "download-source" else s

def rewriteEvent : Event → Event
  | .start s => .start (rewriteStage s)
  | .complete s => .complete (rewriteStage s)
  | .fail s e => .fail (rewriteStage s) e

/-- `if (e.id) e.id = e.id.replace('download', 'download-source')`. -/
def rewriteErrTag (e : TaggedErr) : TaggedErr :=
  if e.tag = "" then e else { e with tag := rewriteStage e.tag }

/-- Outcome of the `stack` toolchain discovery
(`which('stack')` + `stack --numeric-version`). -/
structure StackEnv where
  err : Option ErrData
  path : String
  version : String
deriving Repr

/-- Model of `startBuild`: await the toolchain discovery (failure is tagged
`check-stack` and is terminal), emit the `check-stack` events, run
`buildPurescript` with the `download → download-source` id rewrite, then
rename the produced binary into place (failure tagged `build`), and emit
`build:complete`. -/
def startBuildModel (platform : String) (stack : StackEnv) (build : BuildEnv)
    (renameErr : Option ErrData) : List Event × Option TaggedErr :=
  match stack.err with
  | some e => ([], some ((enrichStackError platform e).withTag "check-stack"))
  | none =>
    let b := buildModel build
    let evs := Event.start "check-stack" :: Event.complete "check-stack"
      :: b.1.map rewriteEvent
    match b.2 with
    | some te => (evs, some (rewriteErrTag te))
    | none =>
      match renameErr with
      | some e => (evs, some (plainErr e "build"))
      | none => (evs ++ [Event.complete "build"], none)

/-- The platform/architecture gate of `download-purescript.js`: prebuilt
binaries exist only for 64-bit `linux` / `darwin` / `win32`; otherwise an
`ERR_UNSUPPORTED_PLATFORM` or `ERR_UNSUPPORTED_ARCH` error is delivered
before any network activity. -/
def unsupportedPlatformErr : ErrData :=
  ⟨"ERR_UNSUPPORTED_PLATFORM", "Prebuilt binary is not provided for this platform."⟩

def unsupportedArchErr : ErrData :=
  ⟨"ERR_UNSUPPORTED_ARCH",
   "The prebuilt PureScript binaries only support 64-bit architectures, but the current system is not 64-bit."⟩

def downloadGate (platform archStr : String) : Option ErrData :=
  if archStr = "x64" then
    if platformSupported platform then none else some unsupportedPlatformErr
  else
    if platformSupported platform then some unsupportedArchErr
    else some unsupportedPlatformErr

/-- Outcome of the prebuilt-archive download once the gate has passed.
Progress callbacks (`download-binary` events) are emitted only for entries
accepted by the filter — which accepts exactly the `purs` entry and marks
the head check complete — so chunk events occur only after `head:complete`. -/
inductive DownloadOutcome where
  /-- The fetch failed before any matching entry was seen
  (`headComplete` still false). -/
  | failNoHead (e : ErrData)
  /-- The `purs` entry was seen (`head:complete` emitted), `chunks` progress
  callbacks ran, then the fetch failed. -/
  | failAfterHead (chunks : Nat) (e : ErrData)
  /-- The `purs` entry was seen and the fetch resolved after `chunks`
  progress callbacks. -/
  | success (chunks : Nat)
deriving Repr

/-- Environment of one `downloadOrBuildPurescript` run. -/
structure DobEnv where
  platform : String
  archStr : String
  download : DownloadOutcome
  /-- Failure of `verifyBinary` on the downloaded binary. -/
  checkBinaryErr : Option ErrData
  stack : StackEnv
  build : BuildEnv
  /-- Failure of the final `rename` into the target path. -/
  renameErr : Option ErrData
deriving Repr

/-- `e.code === 'ERR_UNSUPPORTED_ARCH' || e.code === 'ERR_UNSUPPORTED_PLATFORM'` -/
def unsupportedCode (e : ErrData) : Bool :=
  e.code = "ERR_UNSUPPORTED_ARCH" || e.code = "ERR_UNSUPPORTED_PLATFORM"

/-- The rejection handler of the download promise: after the head check,
failures fall back to the build path with a `download-binary:fail` event;
before it, only unsupported-platform/arch errors fall back (with
`head:fail`), anything else is terminal with tag `head`. -/
def dobHandleFailure (env : DobEnv) (headComplete : Bool) (e : ErrData)
    (pre : List Event) : List Event × Option TaggedErr :=
  if headComplete then
    let sb := startBuildModel env.platform env.stack env.build env.renameErr
    (pre ++ [Event.fail "download-binary" (plainErr e "download-binary")] ++ sb.1, sb.2)
  else if unsupportedCode e then
    let sb := startBuildModel env.platform env.stack env.build env.renameErr
    (pre ++ [Event.fail "head" (plainErr e "head")] ++ sb.1, sb.2)
  else (pre, some (plainErr e "head"))

/-- Model of `downloadOrBuildPurescript`: emit `head`, run the gated
download, verify the binary, falling back to `startBuild` on recoverable
failures.  `none` outcome means the returned promise resolved. -/
def dobModel (env : DobEnv) : List Event × Option TaggedErr :=
  let pre := [Event.start "head"]
  match downloadGate env.platform env.archStr with
  | some e => dobHandleFailure env false e pre
  | none =>
    match env.download with
    | .failNoHead e => dobHandleFailure env false e pre
    | .failAfterHead n e =>
      dobHandleFailure env true e
        (pre ++ [Event.complete "head"] ++ List.replicate n (Event.start "download-binary"))
    | .success n =>
      let evs := pre ++ [Event.complete "head"]
        ++ List.replicate n (Event.start "download-binary")
        ++ [Event.complete "download-binary", Event.start "check-binary"]
      match env.checkBinaryErr with
      | some e =>
        let sb := startBuildModel env.platform env.stack env.build env.renameErr
        (evs ++ [Event.fail "check-binary" (plainErr e "check-binary")] ++ sb.1, sb.2)
      | none => (evs ++ [Event.complete "check-binary"], none)

/-! ### Install cache manager (`install-purescript.js`) -/

/-- A cache entry located by `cacache.get.info`: its metadata `id`
(`<version>-<platform>-<arch>`), the recorded file mode and the content
path inside the store. -/
structure CacheEntry where
  entryId : String
  mode : Nat
  path : String
deriving DecidableEq, Repr

/-- Operations issued against the persistent cache store, in issue order. -/
inductive StoreOp where
  | rmEntry (key : String)
  | verifyStore
  | putEntry (key : String) (metaId : String)
deriving DecidableEq, Repr

/-- Environment of one `installPurescript` run. -/
structure InstallEnv where
  version : String
  platform : String
  archStr : String
  /-- Result of `cacache.get.info(cacheRootDir, cacheKey)`. -/
  info : Option CacheEntry
  /-- Failure of the concurrent target-path check (`stat`/`unlink` of
  `binPath`, e.g. the `EISDIR` error when a directory occupies the target
  path); `none` when the check passed. -/
  preErr : Option ErrData
  /-- Failure of copying the cached bytes to the target path and restoring
  the recorded mode. -/
  restoreErr : Option ErrData
  /-- Failure of `verifyBinary` on the restored binary. -/
  checkBinErr : Option ErrData
  /-- Whether `cacache.rm.entry` fails (its error is swallowed). -/
  rmEntryFails : Bool
  /-- Whether `cacache.verify` fails (its error is swallowed). -/
  verifyStoreFails : Bool
  download : DownloadOutcome
  dlCheckBinaryErr : Option ErrData
  stack : StackEnv
  build : BuildEnv
  renameErr : Option ErrData
  /-- Failure of writing the fresh binary into the cache store. -/
  writeCacheErr : Option ErrData
deriving Repr

/-- The acquisition sub-environment handed to `downloadOrBuildPurescript`. -/
def InstallEnv.dob (env : InstallEnv) : DobEnv :=
  ⟨env.platform, env.archStr, env.download, env.dlCheckBinaryErr,
   env.stack, env.build, env.renameErr⟩

/-- `` `${version}-${process.platform}-${arch}` `` -/
def cacheIdOf (env : InstallEnv) : String :=
  env.version ++ "-" ++ env.platform ++ "-" ++ env.archStr

/-- Result of one `installPurescript` run: the emitted event sequence, the
cache-store operations issued, the terminal outcome (`none` = the observable
completed), how many times the fallback acquisition routine `main` was
entered, and whether a verified/acquired binary sits at the target path. -/
structure InstallRun where
  trace : List Event
  ops : List StoreOp
  result : Option TaggedErr
  mainCalls : Nat
  binaryAtTarget : Bool
deriving Repr

def prependTrace (evs : List Event) (r : InstallRun) : InstallRun :=
  { r with trace := evs ++ r.trace }

/-- Model of `main(brokenCacheFound)`: issue the cache-cleaning operations
(`cacache.rm.entry(cacheRootDir, cacheKey)` only when a broken cache was
found, then `cacache.verify(cacheRootDir)`, both with their errors
swallowed — hence `rmEntryFails` / `verifyStoreFails` do not influence the
run), run the acquisition strategy, then write the acquired binary into the
store under `cacheKey`; a write failure is reported as `write-cache:fail`
but the run still completes. -/
def mainModel (env : InstallEnv) (broken : Bool) : InstallRun :=
  let ops := (if broken then [StoreOp.rmEntry cacheKey] else []) ++ [StoreOp.verifyStore]
  let d := dobModel env.dob
  match d.2 with
  | some e =>
    { trace := d.1, ops := ops, result := some e, mainCalls := 1, binaryAtTarget := false }
  | none =>
    let evs := d.1 ++ [Event.start "write-cache"]
    match env.writeCacheErr with
    | some e =>
      { trace := evs ++ [Event.fail "write-cache" (plainErr e "write-cache")], ops := ops,
        result := none, mainCalls := 1, binaryAtTarget := true }
    | none =>
      { trace := evs ++ [Event.complete "write-cache"],
        ops := ops ++ [StoreOp.putEntry cacheKey (cacheIdOf env)],
        result := none, mainCalls := 1, binaryAtTarget := true }

/-- Model of `installPurescript`: search the cache by `cacheKey`; validate
the metadata id; on a hit restore the bytes and mode and verify the binary;
on miss, id mismatch, restore failure or verification failure enter `main`
(the last three with `brokenCacheFound = true`). -/
def installModel (env : InstallEnv) : InstallRun :=
  match env.preErr with
  | some e =>
    { trace := [], ops := [], result := some (plainErr e ""), mainCalls := 0,
      binaryAtTarget := false }
  | none =>
    match env.info with
    | none => prependTrace [Event.start "search-cache"] (mainModel env false)
    | some entry =>
      if entry.entryId ≠ cacheIdOf env then
        prependTrace [Event.start "search-cache"] (mainModel env true)
      else
        let pre := [Event.start "search-cache", Event.start "restore-cache"]
        match env.restoreErr with
        | some e =>
          prependTrace
            (pre ++ [Event.fail "restore-cache" (plainErr e "restore-cache")])
            (mainModel env true)
        | none =>
          let pre2 := pre ++ [Event.complete "restore-cache", Event.start "check-binary"]
          match env.checkBinErr with
          | some e =>
            prependTrace
              (pre2 ++ [Event.fail "check-binary" (plainErr e "check-binary")])
              (mainModel env true)
          | none =>
            { trace := pre2 ++ [Event.complete "check-binary"], ops := [],
              result := none, mainCalls := 0, binaryAtTarget := true }

/-! ### Archive fetcher entry progress (`dl-tar.js`)

For each accepted tar entry the `onentry` hook arranges progress
notifications: a zero-size entry gets a single deferred notification; an
entry whose data is already fully consumed gets the full-size notification
followed by the current (zero-remaining) one; otherwise `entry.write` is
wrapped so that the first chunk write additionally emits the full-size
notification before the per-chunk one.  The wrapped write calls the
original write *first*, so the first notification happens upon — not
before — the first chunk write. -/

/-- One observable action of the fetcher on an entry: a chunk write of
`bytes` to the destination file, or a progress notification carrying the
entry's remaining-byte counter. -/
inductive TarAction where
  | write (bytes : Nat)
  | notify (remain : Nat)
deriving DecidableEq, Repr

def TarAction.isWrite : TarAction → Bool
  | .write _ => true
  | _ => false

def TarAction.isNotify : TarAction → Bool
  | .notify _ => true
  | _ => false

/-- The wrapped `entry.write` loop: each chunk write is followed by the
full-size notification (first chunk only) and the updated-remaining
notification. -/
def chunkActs (size : Nat) : Nat → List Nat → Bool → List TarAction
  | _, [], _ => []
  | remain, c :: cs, firstEmitted =>
    TarAction.write c
      :: ((if firstEmitted then [] else [TarAction.notify size])
          ++ [TarAction.notify (remain - c)]
          ++ chunkActs size (remain - c) cs true)

/-- Actions performed for one accepted entry of `size` bytes whose data
arrives as `chunks` (sizes of the writes); `buffered` marks the
`entry.remain === 0` branch (data fully consumed before `onentry`). -/
def entryActions (size : Nat) (buffered : Bool) (chunks : List Nat) : List TarAction :=
  if size = 0 then [TarAction.notify 0]
  else if buffered then [TarAction.notify size, TarAction.notify 0]
  else chunkActs size size chunks false

/-- An archive entry as seen by the fetcher. -/
structure TarEntry where
  path : String
  size : Nat
  buffered : Bool
  chunks : List Nat
deriving Repr

/-- Entries rejected by the filter predicate are skipped entirely: no
extraction writes and no notifications (node-tar invokes `onentry` and the
unpacking machinery only for entries accepted by `filter`). -/
def processEntry (accept : String → Bool) (ent : TarEntry) : List TarAction :=
  if accept ent.path then entryActions ent.size ent.buffered ent.chunks else []

/-- Whether some notification precedes every write — the
“one progress notification when the entry starts, before any bytes are
written” reading of the claim: a notification occurs strictly before the
first write. -/
def notifyPrecedesWrites (acts : List TarAction) : Bool :=
  (acts.takeWhile (fun a => !a.isWrite)).any (fun a => a.isNotify)

/-! ### The `feint` join guard (`feint.js`, `build-purescript.js`)

`feint(fn)` returns a wrapper whose first call is a no-op and whose
subsequent calls invoke `fn`.  In the observable generation of
`buildPurescript`, `startBuildOnReady = feint(spawn stack install …)` is
called once from the source-download completion handler and once from the
`stack setup` completion handler (each fires at most once), so the build
subprocess starts exactly on the second of the two completion signals. -/

/-- One call of a `feint`-wrapped function: given the `called` flag, returns
the new flag and whether the wrapped function was invoked. -/
def feintStep (called : Bool) : Bool × Bool :=
  if called then (true, true) else (true, false)

/-- The completion signals that call `startBuildOnReady`. -/
inductive BuildSignal where
  | downloadComplete
  | setupComplete
deriving DecidableEq, Repr

/-- Indices (0-based) of the signals at which the `feint`-guarded build
start actually invokes the build subprocess. -/
def feintFires : List BuildSignal → Bool → Nat → List Nat
  | [], _, _ => []
  | _ :: rest, called, i =>
    let s := feintStep called
    if s.2 then i :: feintFires rest s.1 (i + 1)
    else feintFires rest s.1 (i + 1)

/-- The build-start indices of a run that delivers `signals` in order. -/
def buildStartIndices (signals : List BuildSignal) : List Nat :=
  feintFires signals false 0

/-! ### Event-ordering machinery for claim C6 -/

/-- Stages that emit one dedicated start event immediately before their
work and a single `:complete`/`:fail` terminator: `head`, `check-stack`,
`restore-cache`, `check-binary`, `write-cache`.  The remaining stages
(`search-cache`, `download-binary`, `download-source`, `setup`, `build`)
either have no terminator or emit one start event per received chunk /
output line. -/
def singleShotStages : List String :=
  ["head", "check-stack", "restore-cache", "check-binary", "write-cache"]

/-- Start/terminator tokens of a single stage. -/
inductive Tok where
  | strt
  | term
deriving DecidableEq, Repr

/-- Projects an event onto stage `s`: `some .strt` for a start event of
`s`, `some .term` for its `:complete`/`:fail`, `none` otherwise. -/
def tokOf (s : String) (ev : Event) : Option Tok :=
  if ev.stage = s then some (if ev.isStart then Tok.strt else Tok.term) else none

/-- The sub-sequence of a trace that belongs to stage `s`, as tokens. -/
def stageTrace (s : String) (tr : List Event) : List Tok :=
  tr.filterMap (tokOf s)

/-- Checks that every terminator is preceded by exactly one start since the
previous terminator of the same stage; a trailing un-terminated start is
allowed.  The `open?` flag records whether a start is pending. -/
def wfFrom : Bool → List Tok → Bool
  | _, [] => true
  | false, Tok.strt :: r => wfFrom true r
  | false, Tok.term :: _ => false
  | true, Tok.strt :: _ => false
  | true, Tok.term :: r => wfFrom false r

/-- Stage `s` is well-bracketed in trace `tr`. -/
def wfStage (s : String) (tr : List Event) : Bool :=
  wfFrom false (stageTrace s tr)

/-- Full `(start, terminator)` tiles: the token list is a concatenation of
`[strt, term]` pairs. -/
def tiles : List Tok → Bool
  | [] => true
  | Tok.strt :: Tok.term :: r => tiles r
  | _ => false

/-- Number of events strictly before position `i` whose emitted `id` is
exactly `s` (the claim C6 notion of a start event of stage `s`). -/
def startCountBefore (tr : List Event) (s : String) (i : Nat) : Nat :=
  ((tr.take i).filter (fun ev => ev.eventId = s)).length

/-- Claim C6 as stated: every emitted `s:complete` / `s:fail` event is
preceded by exactly one event whose id is exactly `s`. -/
def c6ClaimCheck (tr : List Event) : Bool :=
  (List.range tr.length).all fun i =>
    match tr.get? i with
    | some (.complete s) => startCountBefore tr s i = 1
    | some (.fail s _) => startCountBefore tr s i = 1
    | _ => true

/-! ### Concrete sample environments (for witnesses and counterexamples) -/

def errSample : ErrData := ⟨"EACCES", "permission denied"⟩

def errNetSample : ErrData := ⟨"ECONNRESET", "socket hang up"⟩

def errEnoent : ErrData := ⟨"ENOENT", "spawn stack ENOENT"⟩

def stackOkEnv : StackEnv := ⟨none, "/usr/bin/stack", "2.7.3"⟩

def stackMissingEnv : StackEnv := ⟨some errEnoent, "", ""⟩

def buildOkEnv : BuildEnv :=
  ⟨none, 2, none, ["Preparing to install GHC"], none, ["purescript> build"], none⟩

/-- A quiet successful build: no stderr output from either subprocess. -/
def buildQuietEnv : BuildEnv := ⟨none, 1, none, [], none, [], none⟩

def dobOkEnv : DobEnv := ⟨"linux", "x64", .success 2, none, stackOkEnv, buildOkEnv, none⟩

/-- A run on an unsupported platform that falls back to a successful build. -/
def dobUnsupportedEnv : DobEnv :=
  ⟨"openbsd", "x64", .failNoHead unsupportedPlatformErr, none, stackOkEnv, buildOkEnv, none⟩

/-- Cache hit whose restore step fails, followed by a successful fresh
acquisition. -/
def envRestoreFail : InstallEnv :=
  ⟨"0.15.7", "linux", "x64", some ⟨"0.15.7-linux-x64", 493, "/cache/content"⟩,
   none, some errSample, none, false, false, .success 2, none, stackOkEnv, buildOkEnv,
   none, none⟩

/-- Cold cache miss whose fresh acquisition succeeds but whose cache write
fails. -/
def envWriteCacheFail : InstallEnv :=
  ⟨"0.15.7", "linux", "x64", none, none, none, none, false, false,
   .success 2, none, stackOkEnv, buildOkEnv, none, some errSample⟩

/-- Cold cache miss: the downloaded binary fails verification, the build
fallback succeeds with completely quiet subprocesses.  The resulting event
sequence contains `download-binary:complete` and `setup:complete` with zero
preceding events of id `download-binary` / `setup`. -/
def envC6Counter : InstallEnv :=
  ⟨"0.15.7", "linux", "x64", none, none, none, none, false, false,
   .success 0, some errSample, stackOkEnv, buildQuietEnv, none, none⟩

/-- Cold cache miss whose fresh acquisition fails terminally: the prebuilt
archive fetch drops the connection before any matching entry is seen. -/
def envDobFail : InstallEnv :=
  ⟨"0.15.7", "linux", "x64", none, none, none, none, false, false,
   .failNoHead errNetSample, none, stackOkEnv, buildOkEnv, none, none⟩

/-- The remaining-byte counter of a notification. -/
def notifyVal : TarAction → Option Nat
  | .notify r => some r
  | _ => none

/-! ## Helper lemmas -/

theorem Event.stage_rewriteEvent (ev : Event) :
    (rewriteEvent ev).stage = rewriteStage ev.stage := by
  cases ev <;> rfl

theorem stageTrace_append (s : String) (a b : List Event) :
    stageTrace s (a ++ b) = stageTrace s a ++ stageTrace s b := by
  simp [stageTrace]

theorem stageTrace_nil_of (s : String) (tr : List Event)
    (h : ∀ ev ∈ tr, ev.stage ≠ s) : stageTrace s tr = [] := by
  induction tr with
  | nil => rfl
  | cons ev tr ih =>
    have h1 : ev.stage ≠ s := h ev (List.mem_cons_self ev tr)
    have h2 := ih fun x hx => h x (List.mem_cons_of_mem ev hx)
    simp [stageTrace, List.filterMap_cons, tokOf, h1] at h2 ⊢
    exact h2

theorem buildModel_stages (env : BuildEnv) :
    ∀ ev ∈ (buildModel env).1,
      ev.stage = "download" ∨ ev.stage = "setup" ∨ ev.stage = "build" := by
  intro ev hev
  unfold buildModel at hev
  rcases h1 : env.mkdtempErr with _ | e <;> simp only [h1] at hev
  · rcases h2 : env.srcErr with _ | e <;> simp only [h2] at hev
    · rcases h3 : env.setupErr with _ | e <;> simp only [h3] at hev
      · rcases h4 : env.buildErr with _ | e <;> simp only [h4] at hev <;>
        · simp only [List.append_assoc, List.mem_append, List.mem_singleton] at hev
          rcases hev with h | h | h | h | h
          · exact Or.inl (by rw [List.eq_of_mem_replicate h]; rfl)
          · exact Or.inl (by rw [h]; rfl)
          · rcases List.mem_map.mp h with ⟨a, -, rfl⟩
            exact Or.inr (Or.inl rfl)
          · exact Or.inr (Or.inl (by rw [h]; rfl))
          · rcases List.mem_map.mp h with ⟨a, -, rfl⟩
            exact Or.inr (Or.inr rfl)
      · simp only [List.append_assoc, List.mem_append, List.mem_singleton] at hev
        rcases hev with h | h | h
        · exact Or.inl (by rw [List.eq_of_mem_replicate h]; rfl)
        · exact Or.inl (by rw [h]; rfl)
        · rcases List.mem_map.mp h with ⟨a, -, rfl⟩
          exact Or.inr (Or.inl rfl)
    · exact Or.inl (by rw [List.eq_of_mem_replicate hev]; rfl)
  · simp at hev

theorem wf_of_tiles : ∀ n xs, xs.length ≤ n → tiles xs = true → wfFrom false xs = true := by
  intro n
  induction n with
  | zero =>
    intro xs hlen _
    rcases xs with _ | ⟨a, r⟩
    · rfl
    · simp at hlen
  | succ n ih =>
    intro xs hlen hx
    rcases xs with _ | ⟨a, r⟩
    · rfl
    · rcases a with _ | _
      · rcases r with _ | ⟨b, r⟩
        · simp [tiles] at hx
        · rcases b with _ | _
          · simp [tiles] at hx
          · have hr : tiles r = true := by simpa [tiles] using hx
            have : wfFrom false r = true := ih r (by simp at hlen; omega) hr
            simpa [wfFrom] using this
      · simp [tiles] at hx

theorem wfFrom_append : ∀ n xs ys, xs.length ≤ n → tiles xs = true →
    wfFrom false ys = true → wfFrom false (xs ++ ys) = true := by
  intro n
  induction n with
  | zero =>
    intro xs ys hlen hx hy
    rcases xs with _ | ⟨a, r⟩
    · simpa using hy
    · simp at hlen
  | succ n ih =>
    intro xs ys hlen hx hy
    rcases xs with _ | ⟨a, r⟩
    · simpa using hy
    · rcases a with _ | _
      · rcases r with _ | ⟨b, r⟩
        · simp [tiles] at hx
        · rcases b with _ | _
          · simp [tiles] at hx
          · have hr : tiles r = true := by simpa [tiles] using hx
            have : wfFrom false (r ++ ys) = true := ih r ys (by simp at hlen; omega) hr hy
            simpa [wfFrom] using this
      · simp [tiles] at hx

theorem tiles_append : ∀ n xs ys, xs.length ≤ n → tiles xs = true →
    tiles ys = true → tiles (xs ++ ys) = true := by
  intro n
  induction n with
  | zero =>
    intro xs ys hlen hx hy
    rcases xs with _ | ⟨a, r⟩
    · simpa using hy
    · simp at hlen
  | succ n ih =>
    intro xs ys hlen hx hy
    rcases xs with _ | ⟨a, r⟩
    · simpa using hy
    · rcases a with _ | _
      · rcases r with _ | ⟨b, r⟩
        · simp [tiles] at hx
        · rcases b with _ | _
          · simp [tiles] at hx
          · have hr : tiles r = true := by simpa [tiles] using hx
            have : tiles (r ++ ys) = true := ih r ys (by simp at hlen; omega) hr hy
            simpa [tiles] using this
      · simp [tiles] at hx

/-- The five single-shot stage names, as explicit alternatives. -/
theorem mem_singleShot (s : String) (hs : s ∈ singleShotStages) :
    s = "head" ∨ s = "check-stack" ∨ s = "restore-cache" ∨
    s = "check-binary" ∨ s = "write-cache" := by
  simpa [singleShotStages] using hs

theorem stageTrace_rw_build (s : String) (hs : s ∈ singleShotStages) (benv : BuildEnv) :
    stageTrace s ((buildModel benv).1.map rewriteEvent) = [] := by
  apply stageTrace_nil_of
  intro ev hev
  rcases List.mem_map.mp hev with ⟨ev0, hev0, rfl⟩
  rw [Event.stage_rewriteEvent]
  rcases buildModel_stages benv ev0 hev0 with h | h | h <;> rw [h] <;>
    rcases mem_singleShot s hs with rfl | rfl | rfl | rfl | rfl <;> decide

theorem startBuildModel_stages (p : String) (st : StackEnv) (b : BuildEnv)
    (r : Option ErrData) :
    ∀ ev ∈ (startBuildModel p st b r).1,
      ev.stage = "check-stack" ∨ ev.stage = "download-source" ∨
      ev.stage = "setup" ∨ ev.stage = "build" := by
  intro ev hev
  unfold startBuildModel at hev
  rcases h1 : st.err with _ | e <;> simp only [h1] at hev
  · rcases h2 : (buildModel b).2 with _ | te <;> simp only [h2] at hev
    · rcases h3 : r with _ | e2 <;> simp only [h3] at hev
      · simp only [List.cons_append, List.mem_cons, List.mem_append,
          List.mem_singleton, List.not_mem_nil, or_false] at hev
        rcases hev with rfl | rfl | h | rfl
        · exact Or.inl rfl
        · exact Or.inl rfl
        · rcases List.mem_map.mp h with ⟨ev0, hev0, rfl⟩
          rw [Event.stage_rewriteEvent]
          rcases buildModel_stages b ev0 hev0 with h | h | h <;> rw [h] <;> simp [rewriteStage]
        · exact Or.inr (Or.inr (Or.inr rfl))
      · simp only [List.mem_cons] at hev
        rcases hev with rfl | rfl | h
        · exact Or.inl rfl
        · exact Or.inl rfl
        · rcases List.mem_map.mp h with ⟨ev0, hev0, rfl⟩
          rw [Event.stage_rewriteEvent]
          rcases buildModel_stages b ev0 hev0 with h | h | h <;> rw [h] <;> simp [rewriteStage]
    · simp only [List.mem_cons] at hev
      rcases hev with rfl | rfl | h
      · exact Or.inl rfl
      · exact Or.inl rfl
      · rcases List.mem_map.mp h with ⟨ev0, hev0, rfl⟩
        rw [Event.stage_rewriteEvent]
        rcases buildModel_stages b ev0 hev0 with h | h | h <;> rw [h] <;> simp [rewriteStage]
  · simp at hev

theorem stageTrace_nil (s : String) : stageTrace s [] = [] := rfl

theorem stageTrace_cons (s : String) (ev : Event) (tr : List Event) :
    stageTrace s (ev :: tr) =
      match tokOf s ev with
      | some t => t :: stageTrace s tr
      | none => stageTrace s tr := by
  simp [stageTrace, List.filterMap_cons]
  rcases tokOf s ev with _ | t <;> simp

theorem tokOf_start (s s' : String) :
    tokOf s (Event.start s') = if s' = s then some Tok.strt else none := by
  simp [tokOf, Event.stage, Event.isStart]

theorem tokOf_complete (s s' : String) :
    tokOf s (Event.complete s') = if s' = s then some Tok.term else none := by
  simp [tokOf, Event.stage, Event.isStart]

theorem tokOf_fail (s s' : String) (e : TaggedErr) :
    tokOf s (Event.fail s' e) = if s' = s then some Tok.term else none := by
  simp [tokOf, Event.stage, Event.isStart]

theorem sb_stageTrace (p : String) (st : StackEnv) (b : BuildEnv) (r : Option ErrData)
    (s : String) (hs : s ∈ singleShotStages) :
    stageTrace s (startBuildModel p st b r).1 =
      if st.err = none ∧ s = "check-stack" then [Tok.strt, Tok.term] else [] := by
  have hbm := stageTrace_rw_build s hs b
  unfold startBuildModel
  rcases h1 : st.err with _ | e <;> simp only [h1]
  · rcases h2 : (buildModel b).2 with _ | te <;> simp only [h2]
    · rcases h3 : r with _ | e2 <;> simp only [h3]
      · rcases mem_singleShot s hs with rfl | rfl | rfl | rfl | rfl <;>
          simp [stageTrace_cons, stageTrace_append, tokOf_start, tokOf_complete, hbm,
            stageTrace_nil]
      · rcases mem_singleShot s hs with rfl | rfl | rfl | rfl | rfl <;>
          simp [stageTrace_cons, tokOf_start, tokOf_complete, hbm, stageTrace_nil]
    · rcases mem_singleShot s hs with rfl | rfl | rfl | rfl | rfl <;>
        simp [stageTrace_cons, tokOf_start, tokOf_complete, hbm, stageTrace_nil]
  · rcases mem_singleShot s hs with rfl | rfl | rfl | rfl | rfl <;> simp [stageTrace]

theorem stageTrace_replicate (s s' : String) (n : Nat) (h : s' ≠ s) :
    stageTrace s (List.replicate n (Event.start s')) = [] := by
  apply stageTrace_nil_of
  intro ev hev
  rw [List.eq_of_mem_replicate hev]
  simpa [Event.stage] using h

theorem unsupportedCode_of_gate (p a : String) (e : ErrData)
    (h : downloadGate p a = some e) : unsupportedCode e = true := by
  unfold downloadGate at h
  split_ifs at h <;> cases h <;> decide

theorem dob_stage_wf (env : DobEnv) (s : String) (hs : s ∈ singleShotStages) :
    wfFrom false (stageTrace s (dobModel env).1) = true := by
  have hsb := sb_stageTrace env.platform env.stack env.build env.renameErr s hs
  unfold dobModel
  rcases hg : downloadGate env.platform env.archStr with _ | e
  · rcases hd : env.download with e | ⟨n, e⟩ | n
    · unfold dobHandleFailure
      by_cases hc : unsupportedCode e
      · rcases mem_singleShot s hs with rfl | rfl | rfl | rfl | rfl <;>
          simp [hc, stageTrace_cons, stageTrace_append, tokOf_start, tokOf_fail,
            tokOf_complete, hsb, stageTrace_nil] <;>
          first
          | decide
          | (split_ifs <;> decide)
      · rcases mem_singleShot s hs with rfl | rfl | rfl | rfl | rfl <;>
          simp [hc, stageTrace_cons, stageTrace_append, tokOf_start, tokOf_fail,
            tokOf_complete, stageTrace_nil] <;>
          first
          | decide
          | (split_ifs <;> decide)
    · unfold dobHandleFailure
      rcases mem_singleShot s hs with rfl | rfl | rfl | rfl | rfl <;>
        simp [stageTrace_cons, stageTrace_append, tokOf_start, tokOf_fail,
          tokOf_complete, hsb, stageTrace_nil, stageTrace_replicate] <;>
        first
        | decide
        | (split_ifs <;> decide)
    · rcases hv : env.checkBinaryErr with _ | e <;>
        rcases mem_singleShot s hs with rfl | rfl | rfl | rfl | rfl <;>
        simp [hv, stageTrace_cons, stageTrace_append, tokOf_start, tokOf_fail,
          tokOf_complete, hsb, stageTrace_nil, stageTrace_replicate] <;>
        first
        | decide
        | (split_ifs <;> decide)
  · unfold dobHandleFailure
    have hc := unsupportedCode_of_gate _ _ _ hg
    rcases mem_singleShot s hs with rfl | rfl | rfl | rfl | rfl <;>
      simp [hc, stageTrace_cons, stageTrace_append, tokOf_start, tokOf_fail,
        tokOf_complete, hsb, stageTrace_nil] <;>
      first
      | decide
      | (split_ifs <;> decide)

theorem dob_stage_tiles (env : DobEnv) (s : String) (hs : s ∈ singleShotStages)
    (hnone : (dobModel env).2 = none) :
    tiles (stageTrace s (dobModel env).1) = true := by
  have hsb := sb_stageTrace env.platform env.stack env.build env.renameErr s hs
  unfold dobModel at hnone ⊢
  rcases hg : downloadGate env.platform env.archStr with _ | e <;>
    simp only [hg] at hnone ⊢
  · rcases hd : env.download with e | ⟨n, e⟩ | n <;> simp only [hd] at hnone ⊢
    · unfold dobHandleFailure at hnone ⊢
      by_cases hc : unsupportedCode e
      · rcases mem_singleShot s hs with rfl | rfl | rfl | rfl | rfl <;>
          simp [hc, stageTrace_cons, stageTrace_append, tokOf_start, tokOf_fail,
            tokOf_complete, hsb, stageTrace_nil] <;>
          first
          | decide
          | (split_ifs <;> decide)
      · simp [hc] at hnone
    · unfold dobHandleFailure at hnone ⊢
      rcases mem_singleShot s hs with rfl | rfl | rfl | rfl | rfl <;>
        simp [stageTrace_cons, stageTrace_append, tokOf_start, tokOf_fail,
          tokOf_complete, hsb, stageTrace_nil, stageTrace_replicate] <;>
        first
        | decide
        | (split_ifs <;> decide)
    · rcases hv : env.checkBinaryErr with _ | e <;> simp only [hv] at hnone ⊢ <;>
        rcases mem_singleShot s hs with rfl | rfl | rfl | rfl | rfl <;>
        simp [stageTrace_cons, stageTrace_append, tokOf_start, tokOf_fail,
          tokOf_complete, hsb, stageTrace_nil, stageTrace_replicate] <;>
        first
        | decide
        | (split_ifs <;> decide)
  · unfold dobHandleFailure at hnone ⊢
    have hc := unsupportedCode_of_gate _ _ _ hg
    rcases mem_singleShot s hs with rfl | rfl | rfl | rfl | rfl <;>
      simp [hc, stageTrace_cons, stageTrace_append, tokOf_start, tokOf_fail,
        tokOf_complete, hsb, stageTrace_nil] <;>
      first
      | decide
      | (split_ifs <;> decide)

theorem main_stage_wf (env : InstallEnv) (b : Bool) (s : String)
    (hs : s ∈ singleShotStages) :
    wfFrom false (stageTrace s (mainModel env b).trace) = true := by
  unfold mainModel
  rcases hd : (dobModel env.dob).2 with _ | e
  · have ht := dob_stage_tiles env.dob s hs hd
    rcases hw : env.writeCacheErr with _ | e <;> simp only [hd, hw] <;>
    · rw [List.append_assoc, stageTrace_append]
      refine wfFrom_append (stageTrace s (dobModel env.dob).1).length _ _ le_rfl ht ?_
      rcases mem_singleShot s hs with rfl | rfl | rfl | rfl | rfl <;>
        simp [stageTrace_cons, stageTrace_append, tokOf_start, tokOf_fail,
          tokOf_complete, stageTrace_nil, wfFrom]
  · simp only [hd]
    exact dob_stage_wf env.dob s hs

theorem dobModel_stages (env : DobEnv) :
    ∀ ev ∈ (dobModel env).1,
      ev.stage = "head" ∨ ev.stage = "download-binary" ∨ ev.stage = "check-binary" ∨
      ev.stage = "check-stack" ∨ ev.stage = "download-source" ∨
      ev.stage = "setup" ∨ ev.stage = "build" := by
  have hsb := startBuildModel_stages env.platform env.stack env.build env.renameErr
  intro ev hev
  unfold dobModel at hev
  rcases hg : downloadGate env.platform env.archStr with _ | e <;>
    simp only [hg] at hev
  · rcases hd : env.download with e | ⟨n, e⟩ | n <;> simp only [hd] at hev
    · unfold dobHandleFailure at hev
      by_cases hc : unsupportedCode e <;> simp only [hc] at hev <;>
        simp only [if_true, if_false, Bool.false_eq_true, List.append_assoc,
          List.mem_append, List.mem_singleton, List.mem_cons,
          List.not_mem_nil, or_false] at hev
      · rcases hev with rfl | rfl | h
        · exact Or.inl rfl
        · exact Or.inl rfl
        · rcases hsb ev h with h | h | h | h <;> rw [h] <;> simp
      · rw [hev]
        exact Or.inl rfl
    · unfold dobHandleFailure at hev
      simp only [if_true, List.append_assoc, List.mem_append, List.mem_singleton,
        List.mem_cons, List.not_mem_nil, or_false] at hev
      rcases hev with rfl | rfl | h | rfl | h
      · exact Or.inl rfl
      · exact Or.inl rfl
      · rw [List.eq_of_mem_replicate h]
        simp [Event.stage]
      · simp [Event.stage]
      · rcases hsb ev h with h | h | h | h <;> rw [h] <;> simp
    · rcases hv : env.checkBinaryErr with _ | e <;> simp only [hv] at hev <;>
        simp only [List.append_assoc, List.mem_append, List.mem_singleton,
          List.mem_cons, List.not_mem_nil, or_false] at hev
      · rcases hev with rfl | rfl | h | (rfl | rfl) | rfl
        · exact Or.inl rfl
        · exact Or.inl rfl
        · rw [List.eq_of_mem_replicate h]
          simp [Event.stage]
        · simp [Event.stage]
        · simp [Event.stage]
        · simp [Event.stage]
      · rcases hev with rfl | rfl | h | (rfl | rfl) | rfl | h
        · exact Or.inl rfl
        · exact Or.inl rfl
        · rw [List.eq_of_mem_replicate h]
          simp [Event.stage]
        · simp [Event.stage]
        · simp [Event.stage]
        · simp [Event.stage]
        · rcases hsb ev h with h | h | h | h <;> rw [h] <;> simp
  · unfold dobHandleFailure at hev
    have hc := unsupportedCode_of_gate _ _ _ hg
    simp only [hc, if_true, if_false, Bool.false_eq_true, List.append_assoc,
      List.mem_append, List.mem_singleton, List.mem_cons,
      List.not_mem_nil, or_false] at hev
    rcases hev with rfl | rfl | h
    · exact Or.inl rfl
    · exact Or.inl rfl
    · rcases hsb ev h with h | h | h | h <;> rw [h] <;> simp

theorem mainModel_no_restore (env : InstallEnv) (b : Bool) :
    ∀ ev ∈ (mainModel env b).trace, ev.stage ≠ "restore-cache" := by
  intro ev hev
  unfold mainModel at hev
  rcases hd : (dobModel env.dob).2 with _ | e <;> simp only [hd] at hev
  · rcases hw : env.writeCacheErr with _ | e <;> simp only [hw] at hev <;>
      simp only [List.append_assoc, List.mem_append, List.mem_singleton] at hev <;>
      rcases hev with h | rfl | rfl <;>
      first
      | (rcases dobModel_stages env.dob ev h with h | h | h | h | h | h | h <;>
          rw [h] <;> decide)
      | simp [Event.stage]
  · rcases dobModel_stages env.dob ev hev with h | h | h | h | h | h | h <;>
      rw [h] <;> decide

theorem chunkActs_counts_true (size : Nat) :
    ∀ cs remain,
      ((chunkActs size remain cs true).filter TarAction.isNotify).length = cs.length ∧
      ((chunkActs size remain cs true).filter TarAction.isWrite).length = cs.length := by
  intro cs
  induction cs with
  | nil => intro remain; simp [chunkActs]
  | cons c cs ih =>
    intro remain
    have h := ih (remain - c)
    simp [chunkActs, List.filter_cons, TarAction.isNotify, TarAction.isWrite, h.1, h.2]

/-! ## Claim theorems -/

/-- C8 counterexample: the source-archive filter rejects the entry
`p/travisty/x` although, in the words of the claim, it does not have an
ignored extension, does not lie under a directory named `appveyor`,
`psc-ide` or `travis` directly inside the top-level directory (it lies
under `travisty`), and its basename is not ignored — the code matches the
ignored directory names as string prefixes. -/
theorem c8_counterexample :
    c8SpecAccepts "p/travisty/x" = true ∧
    sourceArchiveFilter "p/travisty/x" = false := by decide

/-- C8 (amended): the source-archive filter accepts exactly the entries
that (a) do not have extension `.md` or `.yml`, (b) do not extend
`join(topLevelDir, d)` as a *string prefix* for `d` among `appveyor`,
`psc-ide`, `travis` — so entries under such a directory, and entries whose
second path component merely begins with such a name, are rejected — and
(c) do not have basename `.gitignore`, `logo.png` or `make_release_notes`;
in particular, of the entries `foo.md`, `ci/appveyor/x`, `.gitignore` and
`purs`, only `purs` passes the filter. -/
theorem c8_filter_exact :
    (∀ p, sourceArchiveFilter p = c8AmendedAccepts p) ∧
    sourceArchiveFilter "foo.md" = false ∧
    sourceArchiveFilter "ci/appveyor/x" = false ∧
    sourceArchiveFilter ".gitignore" = false ∧
    sourceArchiveFilter "purs" = true := by
  refine ⟨fun p => ?_, by decide, by decide, by decide, by decide⟩
  unfold sourceArchiveFilter c8AmendedAccepts
  by_cases h1 : extname p ∈ ignoredExtensions
  · simp [h1]
  · by_cases h2 : ∃ x ∈ ignoredDirectoryNames,
        strStartsWith p (pathJoin (topLevelDir p) x) = true
    · simp [h1, h2, List.any_eq_true]
    · push_neg at h2
      simp only [Bool.not_eq_true] at h2
      have ha : (ignoredDirectoryNames.any fun d =>
          strStartsWith p (pathJoin (topLevelDir p) d)) = false := by
        rw [List.any_eq_false]
        intro x hx
        simp [h2 x hx]
      have hd : decide (∃ x ∈ ignoredDirectoryNames,
          strStartsWith p (pathJoin (topLevelDir p) x) = true) = false := by
        simp only [decide_eq_false_iff_not]
        push_neg
        intro x hx
        simp [h2 x hx]
      simp [ha, hd]

/-- C9: on every platform other than `win32`, when the caller passed
neither `--allow-different-user` nor `--no-allow-different-user`, the
subprocess runner prepends `--allow-different-user`; on `win32`, or when
either form is present, the argument list is passed through unchanged. -/
theorem c9_allow_different_user (platform : String) (args : List String) :
    (platform ≠ "win32" → "--allow-different-user" ∉ args →
      "--no-allow-different-user" ∉ args →
      spawnStackArgs platform args = "--allow-different-user" :: args) ∧
    ((platform = "win32" ∨ "--allow-different-user" ∈ args ∨
        "--no-allow-different-user" ∈ args) →
      spawnStackArgs platform args = args) := by
  constructor
  · intro h1 h2 h3
    simp [spawnStackArgs, h1, h2, h3]
  · intro h
    unfold spawnStackArgs
    rcases h with h | h | h <;> simp [h]

/-- Witness for C9 at concrete inputs. -/
theorem c9_witness :
    spawnStackArgs "linux" ["--fast"] = ["--allow-different-user", "--fast"] ∧
    spawnStackArgs "win32" ["--fast"] = ["--fast"] :=
  ⟨(c9_allow_different_user "linux" ["--fast"]).1 (by decide) (by decide) (by decide),
   (c9_allow_different_user "win32" ["--fast"]).2 (Or.inl rfl)⟩

/-- C5: a spawn failure of `stack` with code `ENOENT` is enriched with an
installation-guidance URL that is platform-specific — distinct anchors for
`darwin`/`freebsd`/`linux`/`win32`, the generic guide page for every other
platform — and a message stating that the `stack` command is not found in
PATH and carrying that URL; inside the acquisition strategy the toolchain
discovery failure is terminal for the whole build path: `startBuild`
produces no further events and surfaces the enriched error tagged
`check-stack` instead of any further fallback. -/
theorem c5_stack_not_found :
    (stackInstallUrl "darwin" = stackGuideBase ++ "#macos" ∧
     stackInstallUrl "freebsd" = stackGuideBase ++ "#freebsd" ∧
     stackInstallUrl "linux" = stackGuideBase ++ "#linux" ∧
     stackInstallUrl "win32" = stackGuideBase ++ "#windows" ∧
     [stackInstallUrl "darwin", stackInstallUrl "freebsd", stackInstallUrl "linux",
      stackInstallUrl "win32"].Nodup) ∧
    (∀ platform, platform ∉ (["darwin", "freebsd", "linux", "win32"] : List String) →
      stackInstallUrl platform = stackGuideBase) ∧
    (∀ platform e, e.code = "ENOENT" →
      (enrichStackError platform e).installUrl = some (stackInstallUrl platform) ∧
      (enrichStackError platform e).message =
        stackNotFoundPhrase ++ stackInstallUrl platform) ∧
    (∀ platform stack build renameErr e, stack.err = some e →
      startBuildModel platform stack build renameErr =
        ([], some ((enrichStackError platform e).withTag "check-stack"))) := by
  refine ⟨by decide, ?_, ?_, ?_⟩
  · intro p hp
    simp only [List.mem_cons, List.not_mem_nil, or_false, not_or] at hp
    obtain ⟨h1, h2, h3, h4⟩ := hp
    simp [stackInstallUrl, stackHash, h1, h2, h3, h4]
  · intro platform e h
    simp [enrichStackError, h]
  · intro platform stack build renameErr e h
    simp [startBuildModel, h]

/-- Witness for C5 at concrete inputs. -/
theorem c5_witness :
    stackInstallUrl "sunos" = stackGuideBase ∧
    (enrichStackError "linux" errEnoent).installUrl = some (stackInstallUrl "linux") ∧
    startBuildModel "linux" stackMissingEnv buildOkEnv none =
      ([], some ((enrichStackError "linux" errEnoent).withTag "check-stack")) :=
  ⟨c5_stack_not_found.2.1 "sunos" (by decide),
   (c5_stack_not_found.2.2.1 "linux" errEnoent rfl).1,
   c5_stack_not_found.2.2.2 "linux" stackMissingEnv buildOkEnv none errEnoent rfl⟩

/-- C7 counterexample: for an entry of size 2 arriving as two one-byte
chunks, the archive fetcher performs a chunk write before it emits any
progress notification — the start notification is emitted upon, not
before, the first chunk write. -/
theorem c7_counterexample :
    (entryActions 2 false [1, 1]).any TarAction.isWrite = true ∧
    notifyPrecedesWrites (entryActions 2 false [1, 1]) = false := by decide

/-- C7 (amended): entries rejected by the filter are neither extracted nor
produce any notification; a zero-byte entry produces exactly one
observable notification carrying remaining `0` (its full size); an entry
whose data was already fully consumed is notified with the full size
before any write; for a streamed entry the start notification carries
remaining equal to the full entry size and is emitted immediately *after*
the first chunk write, followed by one additional notification per chunk
write (so `chunks.length + 1` notifications and `chunks.length` writes in
total). -/
theorem c7_entry_progress :
    (∀ accept ent, accept ent.path = false → processEntry accept ent = []) ∧
    (∀ (buffered : Bool) (chunks : List Nat),
      entryActions 0 buffered chunks = [TarAction.notify 0]) ∧
    (∀ size chunks, size ≠ 0 →
      entryActions size true chunks = [TarAction.notify size, TarAction.notify 0]) ∧
    (∀ size c cs, size ≠ 0 →
      entryActions size false (c :: cs) =
        TarAction.write c :: TarAction.notify size :: TarAction.notify (size - c)
          :: chunkActs size (size - c) cs true) ∧
    (∀ size c cs, size ≠ 0 →
      ((entryActions size false (c :: cs)).filter TarAction.isNotify).length =
        cs.length + 2 ∧
      ((entryActions size false (c :: cs)).filter TarAction.isWrite).length =
        cs.length + 1) := by
  refine ⟨?_, ?_, ?_, ?_, ?_⟩
  · intro accept ent h
    simp [processEntry, h]
  · intro buffered chunks
    simp [entryActions]
  · intro size chunks h
    simp [entryActions, h]
  · intro size c cs h
    simp [entryActions, chunkActs, h]
  · intro size c cs h
    have hc := chunkActs_counts_true size cs (size - c)
    simp [entryActions, chunkActs, h, List.filter_cons, TarAction.isNotify,
      TarAction.isWrite, hc.1, hc.2]

/-- Witness for C7 at concrete inputs. -/
theorem c7_witness :
    processEntry (fun _ => false) ⟨"doc/README", 5, false, [5]⟩ = [] ∧
    entryActions 2 false [1, 1] =
      TarAction.write 1 :: TarAction.notify 2 :: TarAction.notify 1
        :: chunkActs 2 1 [1] true :=
  ⟨c7_entry_progress.1 (fun _ => false) ⟨"doc/README", 5, false, [5]⟩ rfl,
   c7_entry_progress.2.2.2.1 2 1 [1] (by decide)⟩

/-- C10: the compile/install subprocess is started only after both the
source download has completed and the setup subprocess has completed
successfully, and at most once per run.  In the sequential generation this
is visible in the trace: either a `buildPurescript` run emits no `build`
events at all, or its trace splits into a prefix containing both
`download:complete` and `setup:complete` and a suffix consisting solely of
`build` events.  In the observable generation the join is the `feint`
guard: its first call is a no-op, and over any sequence of distinct
completion signals (the download-completion and setup-completion handlers
each fire at most once) the guarded build start fires at most once, and
exactly at the second signal, at which point both signals have been
delivered. -/
theorem c10_build_join (signals : List BuildSignal) (hnd : signals.Nodup) :
    (feintStep false).2 = false ∧
    (buildStartIndices signals).length ≤ 1 ∧
    (∀ i, buildStartIndices signals = [i] →
      i = 1 ∧ BuildSignal.downloadComplete ∈ signals.take (i + 1) ∧
        BuildSignal.setupComplete ∈ signals.take (i + 1)) ∧
    (buildStartIndices signals = [] ↔ signals.length ≤ 1) ∧
    (∀ benv : BuildEnv,
      (∀ ev ∈ (buildModel benv).1, ev.stage ≠ "build") ∨
      ∃ pre bevs, (buildModel benv).1 = pre ++ bevs ∧
        Event.complete "download" ∈ pre ∧ Event.complete "setup" ∈ pre ∧
        (∀ ev ∈ pre, ev.stage ≠ "build") ∧ (∀ ev ∈ bevs, ev.stage = "build")) := by
  have hseq : ∀ benv : BuildEnv,
      (∀ ev ∈ (buildModel benv).1, ev.stage ≠ "build") ∨
      ∃ pre bevs, (buildModel benv).1 = pre ++ bevs ∧
        Event.complete "download" ∈ pre ∧ Event.complete "setup" ∈ pre ∧
        (∀ ev ∈ pre, ev.stage ≠ "build") ∧ (∀ ev ∈ bevs, ev.stage = "build") := by
    intro benv
    unfold buildModel
    rcases h1 : benv.mkdtempErr with _ | e
    · rcases h2 : benv.srcErr with _ | e
      · rcases h3 : benv.setupErr with _ | e
        · refine Or.inr ⟨List.replicate benv.srcChunks (Event.start "download")
            ++ [Event.complete "download"]
            ++ benv.setupLines.map (fun _ => Event.start "setup")
            ++ [Event.complete "setup"],
            (benv.buildLines.filter (fun l => !negligibleLine l)).map
              (fun _ => Event.start "build"), ?_, ?_, ?_, ?_, ?_⟩
          · rcases h4 : benv.buildErr with _ | e <;> simp [List.append_assoc]
          · simp
          · simp
          · intro ev hev
            simp only [List.append_assoc, List.mem_append, List.mem_singleton] at hev
            rcases hev with h | h | h | h
            · rw [List.eq_of_mem_replicate h]
              decide
            · rw [h]
              decide
            · rcases List.mem_map.mp h with ⟨a, -, rfl⟩
              decide
            · rw [h]
              decide
          · intro ev hev
            rcases List.mem_map.mp hev with ⟨a, -, rfl⟩
            rfl
        · refine Or.inl ?_
          intro ev hev
          simp only [List.append_assoc, List.mem_append, List.mem_singleton] at hev
          rcases hev with h | h | h
          · rw [List.eq_of_mem_replicate h]
            decide
          · rw [h]
            decide
          · rcases List.mem_map.mp h with ⟨a, -, rfl⟩
            decide
      · refine Or.inl ?_
        intro ev hev
        rw [List.eq_of_mem_replicate hev]
        decide
    · exact Or.inl (by intro ev hev; simp at hev)
  rcases signals with _ | ⟨a, _ | ⟨b, _ | ⟨c, rest⟩⟩⟩
  · exact ⟨rfl, by simp [buildStartIndices, feintFires],
      by simp [buildStartIndices, feintFires], by simp [buildStartIndices, feintFires], hseq⟩
  · exact ⟨rfl, by simp [buildStartIndices, feintFires, feintStep],
      by simp [buildStartIndices, feintFires, feintStep],
      by simp [buildStartIndices, feintFires, feintStep], hseq⟩
  · have hab : a ≠ b := by
      simp [List.nodup_cons] at hnd
      exact hnd
    refine ⟨rfl, by simp [buildStartIndices, feintFires, feintStep], ?_,
      by simp [buildStartIndices, feintFires, feintStep], hseq⟩
    intro i hi
    have : i = 1 := by
      simpa [buildStartIndices, feintFires, feintStep] using hi.symm
    subst this
    refine ⟨rfl, ?_, ?_⟩ <;> cases a <;> cases b <;> simp_all
  · exfalso
    simp only [List.nodup_cons, List.mem_cons] at hnd
    rcases hnd with ⟨ha, hb, -⟩
    cases a <;> cases b <;> cases c <;> simp_all

/-- C2: each recoverable prebuilt-path failure — unsupported platform or
architecture at the head check, archive download failure after the head
check has completed, or verification failure of the downloaded binary —
emits the corresponding `head:fail` / `download-binary:fail` /
`check-binary:fail` event and continues with the build-from-source
fallback (`startBuild`); the run's outcome is exactly the fallback's
outcome, so the error surfaces as a terminal failure only if the fallback
path itself fails. -/
theorem c2_recoverable_fallback (env : DobEnv) (e : ErrData) (n : Nat) :
    (downloadGate env.platform env.archStr = some e →
      dobModel env =
        ([Event.start "head", Event.fail "head" (plainErr e "head")]
            ++ (startBuildModel env.platform env.stack env.build env.renameErr).1,
         (startBuildModel env.platform env.stack env.build env.renameErr).2)) ∧
    (downloadGate env.platform env.archStr = none →
      env.download = .failAfterHead n e →
      dobModel env =
        ([Event.start "head", Event.complete "head"]
            ++ List.replicate n (Event.start "download-binary")
            ++ [Event.fail "download-binary" (plainErr e "download-binary")]
            ++ (startBuildModel env.platform env.stack env.build env.renameErr).1,
         (startBuildModel env.platform env.stack env.build env.renameErr).2)) ∧
    (downloadGate env.platform env.archStr = none →
      env.download = .success n → env.checkBinaryErr = some e →
      dobModel env =
        ([Event.start "head", Event.complete "head"]
            ++ List.replicate n (Event.start "download-binary")
            ++ [Event.complete "download-binary", Event.start "check-binary",
                Event.fail "check-binary" (plainErr e "check-binary")]
            ++ (startBuildModel env.platform env.stack env.build env.renameErr).1,
         (startBuildModel env.platform env.stack env.build env.renameErr).2)) := by
  refine ⟨?_, ?_, ?_⟩
  · intro hg
    have hc := unsupportedCode_of_gate _ _ _ hg
    unfold dobModel dobHandleFailure
    simp [hg, hc]
  · intro hg hd
    unfold dobModel dobHandleFailure
    simp [hg, hd]
  · intro hg hd hv
    unfold dobModel
    simp [hg, hd, hv]

/-- Witness for C2: an unsupported platform falls back to the build path. -/
theorem c2_witness :
    dobModel dobUnsupportedEnv =
      ([Event.start "head",
        Event.fail "head" (plainErr unsupportedPlatformErr "head")]
          ++ (startBuildModel "openbsd" stackOkEnv buildOkEnv none).1,
       (startBuildModel "openbsd" stackOkEnv buildOkEnv none).2) :=
  (c2_recoverable_fallback dobUnsupportedEnv unsupportedPlatformErr 0).1 (by decide)

/-- C1: on a cache hit (metadata id matches the requested
version-platform-arch triple) whose restore step or subsequent binary
verification fails, the installer emits the corresponding
`restore-cache:fail` / `check-binary:fail` event carrying the error tagged
with that stage id, and re-enters `main` with `brokenCacheFound`: the
cache entry is removed under the fixed `cacheKey` and a store-wide
verification is run — both with their errors ignored, so the run does not
depend on whether they fail — and full acquisition restarts via the
download-or-build strategy (the `main` trace begins with the acquisition
strategy's trace). -/
theorem c1_broken_cache (env : InstallEnv) (entry : CacheEntry) (e : ErrData)
    (hinfo : env.info = some entry) (hid : entry.entryId = cacheIdOf env)
    (hpre : env.preErr = none) :
    (env.restoreErr = some e →
      installModel env =
        prependTrace
          [Event.start "search-cache", Event.start "restore-cache",
           Event.fail "restore-cache" (plainErr e "restore-cache")]
          (mainModel env true)) ∧
    (env.restoreErr = none → env.checkBinErr = some e →
      installModel env =
        prependTrace
          [Event.start "search-cache", Event.start "restore-cache",
           Event.complete "restore-cache", Event.start "check-binary",
           Event.fail "check-binary" (plainErr e "check-binary")]
          (mainModel env true)) ∧
    (∀ b1 b2 : Bool,
      mainModel { env with rmEntryFails := b1, verifyStoreFails := b2 } true =
        mainModel env true) ∧
    (mainModel env true).ops.take 2 =
      [StoreOp.rmEntry cacheKey, StoreOp.verifyStore] ∧
    (∃ rest, (mainModel env true).trace = (dobModel env.dob).1 ++ rest) := by
  refine ⟨?_, ?_, ?_, ?_, ?_⟩
  · intro hr
    unfold installModel
    simp [hpre, hinfo, hid, hr, prependTrace]
  · intro hr hv
    unfold installModel
    simp [hpre, hinfo, hid, hr, hv, prependTrace]
  · intro b1 b2
    rfl
  · unfold mainModel
    rcases hd : (dobModel env.dob).2 with _ | e2 <;> simp [hd]
    rcases hw : env.writeCacheErr with _ | e2 <;> simp [hw]
  · unfold mainModel
    rcases hd : (dobModel env.dob).2 with _ | e2 <;> simp only [hd]
    · rcases hw : env.writeCacheErr with _ | e2 <;> simp only [hw]
      · exact ⟨[Event.start "write-cache", Event.complete "write-cache"], by simp⟩
      · exact ⟨[Event.start "write-cache",
          Event.fail "write-cache" (plainErr e2 "write-cache")], by simp⟩
    · exact ⟨[], by simp⟩

/-- Witness for C1: a cache hit whose restore fails. -/
theorem c1_witness :
    installModel envRestoreFail =
      prependTrace
        [Event.start "search-cache", Event.start "restore-cache",
         Event.fail "restore-cache" (plainErr errSample "restore-cache")]
        (mainModel envRestoreFail true) :=
  (c1_broken_cache envRestoreFail ⟨"0.15.7-linux-x64", 493, "/cache/content"⟩
      errSample rfl (by decide) rfl).1 rfl

theorem mainModel_calls (env : InstallEnv) (b : Bool) :
    (mainModel env b).mainCalls = 1 := by
  unfold mainModel
  rcases hd : (dobModel env.dob).2 with _ | e <;> simp only [hd] <;>
    try rcases hw : env.writeCacheErr with _ | e2 <;> simp only [hw]

theorem mainModel_write_fail (env : InstallEnv) (e : ErrData)
    (hdob : (dobModel env.dob).2 = none) (hw : env.writeCacheErr = some e) (b : Bool) :
    mainModel env b =
      { trace := (dobModel env.dob).1 ++ [Event.start "write-cache"]
          ++ [Event.fail "write-cache" (plainErr e "write-cache")],
        ops := (if b then [StoreOp.rmEntry cacheKey] else []) ++ [StoreOp.verifyStore],
        result := none, mainCalls := 1, binaryAtTarget := true } := by
  unfold mainModel
  simp [hdob, hw]

/-- C3: when the run reaches the cache-write phase (the fallback
acquisition ran and succeeded) and writing the binary into the cache store
fails, the installer emits a final `write-cache:fail` event carrying the
error tagged `write-cache`, the overall installation still completes (the
run's result is completion, not an error), and the acquired binary remains
in place at the target path. -/
theorem c3_write_cache_reported (env : InstallEnv) (e : ErrData)
    (hmain : (installModel env).mainCalls = 1)
    (hdob : (dobModel env.dob).2 = none)
    (hw : env.writeCacheErr = some e) :
    (installModel env).result = none ∧
    (installModel env).trace.getLast? =
      some (Event.fail "write-cache" (plainErr e "write-cache")) ∧
    (installModel env).binaryAtTarget = true := by
  have hm := fun b => mainModel_write_fail env e hdob hw b
  have hlast : ∀ pre : List Event, ∀ b : Bool,
      (prependTrace pre (mainModel env b)).trace.getLast? =
        some (Event.fail "write-cache" (plainErr e "write-cache")) := by
    intro pre b
    rw [hm b]
    show (pre ++ ((dobModel env.dob).1 ++ [Event.start "write-cache"]
      ++ [Event.fail "write-cache" (plainErr e "write-cache")])).getLast? = _
    rw [show pre ++ ((dobModel env.dob).1 ++ [Event.start "write-cache"]
        ++ [Event.fail "write-cache" (plainErr e "write-cache")]) =
      (pre ++ ((dobModel env.dob).1 ++ [Event.start "write-cache"]))
        ++ [Event.fail "write-cache" (plainErr e "write-cache")] by
        simp [List.append_assoc]]
    exact List.getLast?_concat _
  unfold installModel at hmain ⊢
  rcases hp : env.preErr with _ | e2 <;> simp only [hp] at hmain ⊢
  · rcases hi : env.info with _ | entry <;> simp only [hi] at hmain ⊢
    · exact ⟨by simp [prependTrace, hm false], hlast _ false,
        by simp [prependTrace, hm false]⟩
    · by_cases hb : entry.entryId ≠ cacheIdOf env
      · rw [if_pos hb] at hmain ⊢
        exact ⟨by simp [prependTrace, hm true], hlast _ true,
          by simp [prependTrace, hm true]⟩
      · rw [if_neg hb] at hmain ⊢
        rcases hr : env.restoreErr with _ | e3 <;> simp only [hr] at hmain ⊢
        · rcases hv : env.checkBinErr with _ | e4 <;> simp only [hv] at hmain ⊢
          · simp at hmain
          · exact ⟨by simp [prependTrace, hm true], hlast _ true,
              by simp [prependTrace, hm true]⟩
        · exact ⟨by simp [prependTrace, hm true], hlast _ true,
            by simp [prependTrace, hm true]⟩
  · simp at hmain

/-- Witness for C3: a cold miss whose acquisition succeeds but whose cache
write fails still completes. -/
theorem c3_witness :
    (installModel envWriteCacheFail).result = none ∧
    (installModel envWriteCacheFail).trace.getLast? =
      some (Event.fail "write-cache" (plainErr errSample "write-cache")) ∧
    (installModel envWriteCacheFail).binaryAtTarget = true :=
  c3_write_cache_reported envWriteCacheFail errSample (by decide) (by decide) rfl

/-- C4: the fallback acquisition routine `main` is entered at most once per
invocation; its trace never contains a `restore-cache` event (no loop back
to the cache-restore path); and when the acquisition strategy inside the
(single) `main` entry fails, that error is the run's terminal result. -/
theorem c4_fallback_once (env : InstallEnv) :
    (installModel env).mainCalls ≤ 1 ∧
    (∀ (b : Bool) (e : TaggedErr), (dobModel env.dob).2 = some e →
      (mainModel env b).result = some e) ∧
    (∀ b : Bool, ∀ ev ∈ (mainModel env b).trace, ev.stage ≠ "restore-cache") ∧
    (∀ e : TaggedErr, (dobModel env.dob).2 = some e →
      (installModel env).mainCalls = 1 → (installModel env).result = some e) := by
  have hres : ∀ (b : Bool) (e : TaggedErr), (dobModel env.dob).2 = some e →
      (mainModel env b).result = some e := by
    intro b e h
    unfold mainModel
    simp [h]
  refine ⟨?_, hres, fun b => mainModel_no_restore env b, ?_⟩
  · unfold installModel
    rcases hp : env.preErr with _ | e2 <;> simp only []
    · rcases hi : env.info with _ | entry <;> simp only [hi]
      · simp [prependTrace, mainModel_calls]
      · by_cases hb : entry.entryId ≠ cacheIdOf env
        · rw [if_pos hb]
          simp [prependTrace, mainModel_calls]
        · rw [if_neg hb]
          rcases hr : env.restoreErr with _ | e3 <;> simp only [hr]
          · rcases hv : env.checkBinErr with _ | e4 <;> simp only [hv]
            · simp
            · simp [prependTrace, mainModel_calls]
          · simp [prependTrace, mainModel_calls]
    · simp
  · intro e hd hmain
    unfold installModel at hmain ⊢
    rcases hp : env.preErr with _ | e2 <;> simp only [hp] at hmain ⊢
    · rcases hi : env.info with _ | entry <;> simp only [hi] at hmain ⊢
      · simp [prependTrace, hres false e hd]
      · by_cases hb : entry.entryId ≠ cacheIdOf env
        · rw [if_pos hb] at hmain ⊢
          simp [prependTrace, hres true e hd]
        · rw [if_neg hb] at hmain ⊢
          rcases hr : env.restoreErr with _ | e3 <;> simp only [hr] at hmain ⊢
          · rcases hv : env.checkBinErr with _ | e4 <;> simp only [hv] at hmain ⊢
            · simp at hmain
            · simp [prependTrace, hres true e hd]
          · simp [prependTrace, hres true e hd]
    · simp at hmain

/-- Witness for C4: a terminal acquisition failure propagates as the run's
result. -/
theorem c4_witness :
    (installModel envDobFail).result = some (plainErr errNetSample "head") :=
  (c4_fallback_once envDobFail).2.2.2 (plainErr errNetSample "head")
    (by decide) (by decide)

/-- C6 counterexample: in the cache-miss run `envC6Counter` (downloaded
binary fails verification, quiet build fallback succeeds) the emitted
sequence contains `download-binary:complete`, `download-source:complete`
and `setup:complete` events preceded by zero events whose id is exactly
`download-binary` / `download-source` / `setup`, so the claim "every
`s:complete` or `s:fail` event is preceded by exactly one start event for
the same stage" fails on this run. -/
theorem c6_counterexample :
    c6ClaimCheck (installModel envC6Counter).trace = false := by decide

/-- C6 (amended): for every run and for each stage with a dedicated start
event (`head`, `check-stack`, `restore-cache`, `check-binary`,
`write-cache`), the emitted events of that stage are well-bracketed: every
`:complete`/`:fail` terminator is preceded by exactly one start event for
that stage since the stage's previous terminator (a trailing unterminated
start is possible when the run aborts).  The remaining stages
(`search-cache`, `download-binary`, `download-source`, `setup`, `build`)
emit either no terminator or one start event per received chunk or output
line, which may number zero or more than one. -/
theorem c6_start_events (env : InstallEnv) (s : String) (hs : s ∈ singleShotStages) :
    wfStage s (installModel env).trace = true := by
  unfold installModel wfStage
  rcases hp : env.preErr with _ | e <;> simp only [hp]
  · rcases hi : env.info with _ | entry <;> simp only [hi]
    · have hm := main_stage_wf env false s hs
      simp only [prependTrace]
      rw [stageTrace_append]
      refine wfFrom_append (stageTrace s [Event.start "search-cache"]).length _ _
        le_rfl ?_ hm
      rcases mem_singleShot s hs with rfl | rfl | rfl | rfl | rfl <;> decide
    · by_cases hb : entry.entryId ≠ cacheIdOf env
      · rw [if_pos hb]
        have hm := main_stage_wf env true s hs
        simp only [prependTrace]
        rw [stageTrace_append]
        refine wfFrom_append (stageTrace s [Event.start "search-cache"]).length _ _
          le_rfl ?_ hm
        rcases mem_singleShot s hs with rfl | rfl | rfl | rfl | rfl <;> decide
      · rw [if_neg hb]
        have hm := main_stage_wf env true s hs
        rcases hr : env.restoreErr with _ | e3 <;> simp only [hr]
        · rcases hv : env.checkBinErr with _ | e4 <;> simp only [hv]
          · rcases mem_singleShot s hs with rfl | rfl | rfl | rfl | rfl <;>
              simp [stageTrace_cons, stageTrace_append, stageTrace_nil,
                tokOf_start, tokOf_complete, wfFrom]
          · simp only [prependTrace]
            rw [stageTrace_append]
            refine wfFrom_append _ _ _ le_rfl ?_ hm
            rcases mem_singleShot s hs with rfl | rfl | rfl | rfl | rfl <;>
              simp [stageTrace_cons, stageTrace_append, stageTrace_nil,
                tokOf_start, tokOf_complete, tokOf_fail, tiles]
        · simp only [prependTrace]
          rw [stageTrace_append]
          refine wfFrom_append _ _ _ le_rfl ?_ hm
          rcases mem_singleShot s hs with rfl | rfl | rfl | rfl | rfl <;>
            simp [stageTrace_cons, stageTrace_append, stageTrace_nil,
              tokOf_start, tokOf_complete, tokOf_fail, tiles]
  · rfl

/-- Witness for C6 (amended) on a concrete run and stage. -/
theorem c6_witness :
    wfStage "check-binary" (installModel envC6Counter).trace = true :=
  c6_start_events envC6Counter "check-binary" (by decide)

/-- Witness for C10 at a concrete signal order: setup finishing before the
download still starts the build exactly once, at the second signal. -/
theorem c10_witness :
    (buildStartIndices
      [BuildSignal.setupComplete, BuildSignal.downloadComplete]).length ≤ 1 ∧
    buildStartIndices [BuildSignal.setupComplete] = [] :=
  ⟨(c10_build_join [BuildSignal.setupComplete, BuildSignal.downloadComplete]
      (by decide)).2.1,
   (c10_build_join [BuildSignal.setupComplete] (by decide)).2.2.2.1.mpr (by decide)⟩
